import Mathlib

/-!
Shallow embedding of the AmbientPad sketch (src/Ambientpad.ino): the crossfade
mixer and its two SD file handles, the metronome click state machine, the
rotary-encoder tempo control and the pending-file selection machine.

Modelling conventions:
* The sketch's global variables become fields of explicit state records
  (`PState` for the audio path, `MetroState` for the metronome, `SelState`
  for the pending selection); each C function becomes a state transformer.
* `millis()` becomes an explicit `now : ℕ` argument (milliseconds).
* The SD card becomes an `Env`: the byte size of each file, the little-endian
  16-bit sample stored at a given byte offset, and whether `SD.open` succeeds.
  `File.read(buf, n)` returns `min n (size - pos)` bytes and advances the
  cursor by that amount; a read at or past the end returns 0 bytes.
* Arduino `File` objects are reference counted; assigning over the last
  reference closes the underlying handle.  The ghost field `openCount` counts
  the OS-level handles currently open and is updated at every open and at
  every close/drop; the ghost field `oldCloses` counts how many times an
  outgoing (`oldFile`) handle has been released.
* The sketch's float arithmetic (gain ramp, mixing) is modelled with exact
  rational arithmetic.  Concrete inputs evaluated below are chosen so that
  every IEEE single-precision operation the sketch would perform on them is
  exact, hence the rational model coincides with the float computation there.
* The C cast `(int16_t)leftMixed` truncates the float toward zero and narrows
  to 16 bits; `toI16` models the two's-complement narrowing the target
  performs.  Claims proved below only rely on its behaviour for in-range
  values, where the C semantics is defined: truncation toward zero.
-/

namespace AmbientPad

/-- Source `#define SAMPLE_RATE 44100` (Hz). -/
def sampleRate : ℕ := 44100

/-- Source `#define CROSSFADE_MS 3000`: crossfade duration in milliseconds. -/
def crossfadeMs : ℕ := 3000

/-- Source `float oldMin = 0.1f`: the gain floor the outgoing file fades to
(the spec's MIN_GAIN), modelled exactly. -/
def oldMin : ℚ := 1 / 10

/-- Source `#define SELECT_TIMEOUT_MS 2000`: delay before a pending selection commits. -/
def selectTimeoutMs : ℕ := 2000

/-- Source `#define CLICK_DURATION_MS 20`: length of one metronome click. -/
def clickDurationMs : ℕ := 20

/-- Source `const int bufferSize = 256`: mono samples requested per mixing cycle. -/
def bufferSize : ℕ := 256

/-- The SD card: byte size of each file, the 16-bit sample stored at a byte
offset of a file, and whether `SD.open` succeeds for the file at an index.
Files are identified by their index in `fileList`. -/
structure Env where
  size : ℕ → ℕ
  sample : ℕ → ℕ → ℤ
  openOk : ℕ → Bool

/-- The audio-path globals of the sketch: the two file handles (`oldFile`,
`newFile`, each `none` when closed, otherwise the file index it was opened
on, together with its byte cursor), the crossfade state, and the index of the
playing file, plus the two ghost accounting fields described above. -/
structure PState where
  oldA : Option ℕ
  oldPos : ℕ
  newA : Option ℕ
  newPos : ℕ
  crossfadeActive : Bool
  crossfadeSamples : ℕ
  crossfadeProgress : ℕ
  playingFileIndex : ℕ
  openCount : ℕ
  oldCloses : ℕ
deriving DecidableEq

/-- Bytes a `File.read` returns: what remains after the cursor, capped by the
requested count. -/
def bytesRead (env : Env) (a pos req : ℕ) : ℕ := min req (env.size a - pos)

/-- Bytes `oldFile.read((uint8_t*)oldBuf, bufferSize*sizeof(int16_t))`
returns this cycle (0 when `oldFile` is closed). -/
def bytesOldOf (env : Env) (s : PState) : ℕ :=
  match s.oldA with
  | none => 0
  | some a => bytesRead env a s.oldPos (2 * bufferSize)

/-- Bytes `newFile.read((uint8_t*)newBuf, bufferSize*sizeof(int16_t))`
returns this cycle (0 when `newFile` is closed). -/
def bytesNewOf (env : Env) (s : PState) : ℕ :=
  match s.newA with
  | none => 0
  | some a => bytesRead env a s.newPos (2 * bufferSize)

/-- Source `int samplesOld = bytesOld/sizeof(int16_t)`. -/
def samplesOldOf (env : Env) (s : PState) : ℕ := bytesOldOf env s / 2

/-- Source `int samplesNew = bytesNew/sizeof(int16_t)`. -/
def samplesNewOf (env : Env) (s : PState) : ℕ := bytesNewOf env s / 2

/-- Source `int maxSamples = max(samplesOld, samplesNew)`: the number of frames the
sketch mixes and writes this cycle. -/
def maxSamplesOf (env : Env) (s : PState) : ℕ :=
  max (samplesOldOf env s) (samplesNewOf env s)

/-- The per-frame crossfade ratio: 1 by default, and
`crossfadeProgress / crossfadeSamples` capped at 1 while a crossfade with a
positive length is active. -/
def ratioOf (active : Bool) (progress samples : ℕ) : ℚ :=
  if active ∧ 0 < samples then min ((progress : ℚ) / (samples : ℚ)) 1 else 1

/-- Source `float oldVol = 1.0f - ratio*(1.0f - oldMin)`: gain of the outgoing file. -/
def oldVolOf (active : Bool) (progress samples : ℕ) : ℚ :=
  1 - ratioOf active progress samples * (1 - oldMin)

/-- Source `float newVol = ratio`: gain of the incoming file. -/
def newVolOf (active : Bool) (progress samples : ℕ) : ℚ :=
  ratioOf active progress samples

/-- Truncation toward zero: the rounding a C cast from a floating-point value
to an integer type performs. -/
def ratTrunc (q : ℚ) : ℤ := if 0 ≤ q then ⌊q⌋ else ⌈q⌉

/-- Two's-complement narrowing to 16 bits. -/
def wrap16 (z : ℤ) : ℤ := (z + 32768) % 65536 - 32768

/-- The cast `(int16_t)leftMixed`: truncate toward zero, narrow to 16 bits. -/
def toI16 (q : ℚ) : ℤ := wrap16 (ratTrunc q)

/-- Exact value of `float leftMixed = oldVal*oldVol + newVal*newVol`. -/
def mixedSampleQ (oldS newS : ℤ) (active : Bool) (progress samples : ℕ) : ℚ :=
  (oldS : ℚ) * oldVolOf active progress samples +
    (newS : ℚ) * newVolOf active progress samples

/-- Whether `crossfadeActive` still holds when the mixing loop runs: the old
file's read returning zero bytes has already cleared it earlier in the same
call to `readWavDataAndPlay`. -/
def activeMid (env : Env) (s : PState) : Bool :=
  if s.oldA.isSome ∧ bytesOldOf env s = 0 then false else s.crossfadeActive

/-- Source `float oldVal = (i<samplesOld) ? (float)oldBuf[i] : 0.0f`: the outgoing
file's contribution to frame `i`, zero beyond the bytes actually read
(`oldBuf` was zeroed with `memset`). -/
def oldContrib (env : Env) (s : PState) (i : ℕ) : ℤ :=
  if i < samplesOldOf env s then
    match s.oldA with
    | some a => env.sample a (s.oldPos + 2 * i)
    | none => 0
  else 0

/-- Source `float newVal = (i<samplesNew) ? (float)newBuf[i] : 0.0f`. -/
def newContrib (env : Env) (s : PState) (i : ℕ) : ℤ :=
  if i < samplesNewOf env s then
    match s.newA with
    | some a => env.sample a (s.newPos + 2 * i)
    | none => 0
  else 0

/-- Exact mixed value of frame `i` of this cycle's block. -/
def exactMixAt (env : Env) (s : PState) (i : ℕ) : ℚ :=
  mixedSampleQ (oldContrib env s i) (newContrib env s i) (activeMid env s)
    s.crossfadeProgress s.crossfadeSamples

/-- The 16-bit left-channel sample the sketch stores at frame `i`. -/
def blockSample (env : Env) (s : PState) (i : ℕ) : ℤ :=
  toI16 (exactMixAt env s i)

/-- The left-channel block written to I2S this cycle. -/
def mixBlock (env : Env) (s : PState) : List ℤ :=
  (List.range (maxSamplesOf env s)).map (blockSample env s)

/-- The `oldFile` phase of `readWavDataAndPlay`: a zero-byte read closes the
outgoing file and clears `crossfadeActive`; otherwise the cursor advances. -/
def stepOldFile (env : Env) (s : PState) : PState :=
  match s.oldA with
  | none => s
  | some _ =>
    if bytesOldOf env s = 0 then
      { s with oldA := none, crossfadeActive := false,
               openCount := s.openCount - 1, oldCloses := s.oldCloses + 1 }
    else { s with oldPos := s.oldPos + bytesOldOf env s }

/-- The `newFile` phase of `readWavDataAndPlay`: a zero-byte read seeks back
to byte 44 (just past the WAV header); otherwise the cursor advances. -/
def stepNewFile (env : Env) (s : PState) : PState :=
  match s.newA with
  | none => s
  | some _ =>
    if bytesNewOf env s = 0 then { s with newPos := 44 }
    else { s with newPos := s.newPos + bytesNewOf env s }

/-- The crossfade bookkeeping at the end of `readWavDataAndPlay`: while a
crossfade is active, `crossfadeProgress += maxSamples`, and on reaching
`crossfadeSamples` the crossfade is ended and the outgoing file is closed. -/
def stepProgress (maxS : ℕ) (s : PState) : PState :=
  if s.crossfadeActive = true then
    if s.crossfadeSamples ≤ s.crossfadeProgress + maxS then
      match s.oldA with
      | some _ =>
        { s with crossfadeProgress := s.crossfadeProgress + maxS,
                 crossfadeActive := false, oldA := none,
                 openCount := s.openCount - 1, oldCloses := s.oldCloses + 1 }
      | none =>
        { s with crossfadeProgress := s.crossfadeProgress + maxS,
                 crossfadeActive := false }
    else { s with crossfadeProgress := s.crossfadeProgress + maxS }
  else s

/-- One call to `readWavDataAndPlay()`: returns the new state and the
function's boolean result (`false` when no handle is open or when no source
produced any sample this cycle). -/
def readStep (env : Env) (s : PState) : PState × Bool :=
  if s.oldA = none ∧ s.newA = none then (s, false)
  else
    let s2 := stepNewFile env (stepOldFile env s)
    if maxSamplesOf env s = 0 then (s2, false)
    else (stepProgress (maxSamplesOf env s) s2, true)

/-- Runs `n` consecutive calls to `readWavDataAndPlay()`. -/
def mixN (env : Env) (s : PState) : ℕ → PState
  | 0 => s
  | n + 1 => mixN env (readStep env s).1 n

/-- Number of open handles referenced by the two slots. -/
def openSlots (s : PState) : ℕ :=
  (if s.oldA.isSome then 1 else 0) + (if s.newA.isSome then 1 else 0)

/-- Handle accounting invariant: every OS-level handle ever opened and not yet
closed is held in one of the two slots (nothing leaks outside them). -/
def handleInv (s : PState) : Prop := s.openCount = openSlots s

/-- Source `startPlaying(fileIndex)`: close both handles, clear the crossfade, open
the target (skipping the 44-byte header); on failure nothing is playing and
`playingFileIndex` is unchanged. -/
def startPlaying (env : Env) (fileIndex : ℕ) (s : PState) : PState :=
  let closed : PState :=
    { s with oldA := none, newA := none, crossfadeActive := false,
             openCount := s.openCount - openSlots s,
             oldCloses := s.oldCloses + (if s.oldA.isSome then 1 else 0) }
  if env.openOk fileIndex then
    { closed with newA := some fileIndex, newPos := min 44 (env.size fileIndex),
                  openCount := closed.openCount + 1, playingFileIndex := fileIndex }
  else closed

/-- Source `startCrossfade(newIndex)`.  With no playing file this is `startPlaying`.
Otherwise `oldFile = newFile` drops (closes) the previous outgoing handle and
moves the playing handle to the outgoing slot; then the target is opened as
the incoming file and a fresh crossfade starts.  If `SD.open` fails, the
playing handle is moved back (`newFile = oldFile; oldFile = File()`), and
neither `playingFileIndex` nor any crossfade field is touched. -/
def startCrossfade (env : Env) (newIndex : ℕ) (s : PState) : PState :=
  match s.newA with
  | none => startPlaying env newIndex s
  | some _ =>
    let sMid : PState :=
      { s with oldA := s.newA, oldPos := s.newPos,
               openCount := s.openCount - (if s.oldA.isSome then 1 else 0),
               oldCloses := s.oldCloses + (if s.oldA.isSome then 1 else 0) }
    if env.openOk newIndex then
      { sMid with newA := some newIndex, newPos := min 44 (env.size newIndex),
                  openCount := sMid.openCount + 1,
                  crossfadeSamples := sampleRate * crossfadeMs / 1000,
                  crossfadeProgress := 0, crossfadeActive := true,
                  playingFileIndex := newIndex }
    else
      { sMid with newA := s.newA, newPos := s.newPos, oldA := none }

/-- The operations the sketch performs on the audio-path state. -/
inductive AudioOp where
  | play (fileIndex : ℕ)
  | crossfade (newIndex : ℕ)
  | mixCycle
deriving DecidableEq

/-- Apply one audio-path operation. -/
def applyOp (env : Env) (s : PState) : AudioOp → PState
  | .play i => startPlaying env i s
  | .crossfade i => startCrossfade env i s
  | .mixCycle => (readStep env s).1

/-- Apply a sequence of audio-path operations. -/
def applyOps (env : Env) (s : PState) (ops : List AudioOp) : PState :=
  ops.foldl (applyOp env) s

/-! ## Metronome (updateMetronome, generateClickSample, toggleMetronome) -/

/-- Source `int timeSignatures[3][2] = {{4,4},{3,4},{6,8}}`. -/
def timeSignatures : List (ℕ × ℕ) := [(4, 4), (3, 4), (6, 8)]

/-- Source `timeSignatures[idx][0]`, the beats per measure of the selected meter
(the sketch keeps `idx < 3`; out of range defaults to 4/4 here). -/
def beatsPerMeasureOf (idx : ℕ) : ℕ := ((timeSignatures.get? idx).getD (4, 4)).1

/-- The metronome globals of the sketch. -/
structure MetroState where
  lastClickTime : ℕ
  currentBeat : ℕ
  metronomeEnabled : Bool
  clickActive : Bool
  accentBeat : Bool
  clickStartTime : ℕ
  clickSampleCount : ℕ
  currentBPM : ℕ
  currentTimeSigIndex : ℕ
deriving DecidableEq

/-- The beat-boundary test `(nowMs - lastClickTime) >= msPerBeat` with
`float msPerBeat = 60000.0f / currentBPM`, modelled with exact rational
arithmetic.  For integer elapsed times and bpm in [30,240] the
single-precision comparison agrees with the exact one: 60000/bpm is at least
1/240 away from any integer it does not equal, while the float rounding error
of the quotient is below 1e-4. -/
def beatDue (now : ℕ) (s : MetroState) : Bool :=
  decide ((60000 : ℚ) / (s.currentBPM : ℚ) ≤ ((now - s.lastClickTime : ℕ) : ℚ))

/-- Source `updateMetronome()`: nothing while disabled; on a due beat, advance
`currentBeat` (wrapping past the meter numerator back to 1), accent beat 1,
and start a click voice. -/
def updateMetronome (now : ℕ) (s : MetroState) : MetroState :=
  if s.metronomeEnabled = false then s
  else if beatDue now s then
    { s with lastClickTime := now,
             currentBeat :=
               if beatsPerMeasureOf s.currentTimeSigIndex < s.currentBeat + 1 then 1
               else s.currentBeat + 1,
             accentBeat :=
               decide ((if beatsPerMeasureOf s.currentTimeSigIndex < s.currentBeat + 1 then 1
                        else s.currentBeat + 1) = 1),
             clickActive := true, clickStartTime := now, clickSampleCount := 0 }
  else s

/-- Source `generateClickSample()`: silence while no voice is active; past the click
duration the voice is deactivated and silence returned; otherwise one sample
of the decaying tone burst.  The audible waveform value (computed by the
sketch with single-precision sinf/expf from `accentBeat` and
`clickSampleCount`) is abstracted as the parameter `wave`; no claim below
depends on it. -/
def generateClickSample (wave : Bool → ℕ → ℤ) (now : ℕ) (s : MetroState) :
    ℤ × MetroState :=
  if s.clickActive = false then (0, s)
  else if clickDurationMs < now - s.clickStartTime then
    (0, { s with clickActive := false })
  else
    (wave s.accentBeat s.clickSampleCount,
     { s with clickSampleCount := s.clickSampleCount + 1 })

/-- Source `toggleMetronome()`: flip `metronomeEnabled`; when disabling, also kill
any active click voice. -/
def toggleMetronome (s : MetroState) : MetroState :=
  let e := !s.metronomeEnabled
  { s with metronomeEnabled := e,
           clickActive := if e then s.clickActive else false }

/-- Run `updateMetronome` at each time of `times` and record, for each beat
that fires, the time, the beat number and whether it is accented. -/
def metroSim (times : List ℕ) (s : MetroState) : List (ℕ × ℕ × Bool) :=
  (times.foldl
    (fun acc t =>
      let s2 := updateMetronome t acc.1
      (s2, if acc.1.metronomeEnabled && beatDue t acc.1 then
             acc.2 ++ [(t, s2.currentBeat, s2.accentBeat)]
           else acc.2))
    (s, [])).2

/-- The metronome state right after `setup()`. -/
def metroBoot : MetroState :=
  { lastClickTime := 0, currentBeat := 0, metronomeEnabled := true,
    clickActive := false, accentBeat := false, clickStartTime := 0,
    clickSampleCount := 0, currentBPM := 120, currentTimeSigIndex := 0 }

/-! ## Rotary encoder tempo steps (handleEncoder) -/

/-- Source `int minBPM = 30`. -/
def minBPM : ℤ := 30

/-- Source `int maxBPM = 240`. -/
def maxBPM : ℤ := 240

/-- One decoded encoder detent in `handleEncoder()`: `currentBPM` is stepped
by one in the decoded direction and then clamped into [minBPM, maxBPM]. -/
def encoderStep (bpm : ℤ) (up : Bool) : ℤ :=
  let b := bpm + (if up then 1 else -1)
  let b2 := if b < minBPM then minBPM else b
  if maxBPM < b2 then maxBPM else b2

/-! ## Pending file selection (nextFile, prevFile, the commit poll in loop) -/

/-- The pending-selection globals of the sketch. -/
structure SelState where
  selectedFileIndex : ℕ
  waitingToPlay : Bool
  lastInputTime : ℕ
deriving DecidableEq

/-- Source `nextFile()`: advance the candidate index (wrapping at `fileCount`), arm
the pending selection and restart its commit timer at the current time. -/
def nextFile (fileCount now : ℕ) (s : SelState) : SelState :=
  { selectedFileIndex :=
      if fileCount ≤ s.selectedFileIndex + 1 then 0 else s.selectedFileIndex + 1,
    waitingToPlay := true, lastInputTime := now }

/-- Source `prevFile()`: step the candidate index back (wrapping below 0 to
`fileCount - 1`), arm the pending selection and restart its commit timer. -/
def prevFile (fileCount now : ℕ) (s : SelState) : SelState :=
  { selectedFileIndex :=
      if s.selectedFileIndex = 0 then fileCount - 1 else s.selectedFileIndex - 1,
    waitingToPlay := true, lastInputTime := now }

/-- The commit test in `loop()`:
`waitingToPlay && (millis() - lastInputTime >= SELECT_TIMEOUT_MS)`. -/
def commitDue (now : ℕ) (s : SelState) : Bool :=
  s.waitingToPlay && decide (selectTimeoutMs ≤ now - s.lastInputTime)

/-- Discrete events fed to the selection machine: the two navigation events
and one polling pass of `loop()`. -/
inductive SelEvent where
  | next
  | prev
  | poll
deriving DecidableEq

/-- One event at time `now`: navigation updates the pending selection; a poll
commits it (emitting the committed index) once the timeout has elapsed. -/
def selStep (fileCount now : ℕ) (s : SelState) : SelEvent → SelState × Option ℕ
  | .next => (nextFile fileCount now s, none)
  | .prev => (prevFile fileCount now s, none)
  | .poll =>
    if commitDue now s then ({ s with waitingToPlay := false }, some s.selectedFileIndex)
    else (s, none)

/-- Run a timed event list through the selection machine, collecting each
committed transition as (time, target index). -/
def selRun (fileCount : ℕ) (s : SelState) (evs : List (ℕ × SelEvent)) :
    SelState × List (ℕ × ℕ) :=
  evs.foldl
    (fun acc te =>
      let r := selStep fileCount te.1 acc.1 te.2
      (r.1, acc.2 ++ (match r.2 with | some i => [(te.1, i)] | none => [])))
    (s, [])

/-- The commit branch of `loop()` (lines 245-251): once the 2-second timeout
elapses on a pending selection, `startCrossfade(selectedFileIndex)` runs and
`waitingToPlay` is cleared. -/
def loopCommit (env : Env) (now : ℕ) (sel : SelState) (p : PState) :
    SelState × PState :=
  if commitDue now sel then
    ({ sel with waitingToPlay := false }, startCrossfade env sel.selectedFileIndex p)
  else (sel, p)

/-! ## Invariants and the spec-side mixing model -/

instance (s : PState) : Decidable (handleInv s) := by
  unfold handleInv; infer_instance

/-- Invariant tracked for one crossfade of `T` frames: either the fade is
still running (outgoing handle open, never yet released, progress short of
`T`), or it has ended with the outgoing handle released exactly once. -/
def c1Inv (T : ℕ) (s : PState) : Prop :=
  s.crossfadeSamples = T ∧
  ((s.crossfadeActive = true ∧ s.oldCloses = 0 ∧ s.oldA.isSome = true ∧
      s.crossfadeProgress < T) ∨
   (s.crossfadeActive = false ∧ s.oldA = none ∧ s.oldCloses = 1))

instance (T : ℕ) (s : PState) : Decidable (c1Inv T s) := by
  unfold c1Inv; infer_instance

/-- Invariant of claim C10: a disabled metronome has no active click voice. -/
def clickInv (s : MetroState) : Prop :=
  s.metronomeEnabled = false → s.clickActive = false

instance (s : MetroState) : Decidable (clickInv s) := by
  unfold clickInv; infer_instance

/-- Modelled from the spec's words (section 4.3, numeric semantics), for
comparison with the code's cast `toI16`: final samples are rounded toward
nearest and clipped to the valid signed 16-bit range. -/
def specMixedSample (q : ℚ) : ℤ := max (-32768) (min 32767 (round q))

/-! ## Concrete storage environments and states used by witnesses and
counterexamples -/

/-- A test card: file 0 is 102 bytes long (29 samples after the header),
file 1 holds the constant sample 3, file 2 is long; opening file 3 fails. -/
def envW : Env :=
  { size := fun a => if a = 0 then 102 else 1000000000,
    sample := fun a off => if a = 1 then 3 else (off : ℤ),
    openOk := fun a => decide (a ≠ 3) }

/-- Mid-crossfade state: the outgoing file 0 has 2 bytes left, the incoming
file 1 reads full buffers; `crossfadeProgress/crossfadeSamples = 1/4`, a
ratio on which every single-precision operation of the sketch is exact. -/
def stMid : PState :=
  { oldA := some 0, oldPos := 100, newA := some 1, newPos := 44,
    crossfadeActive := true, crossfadeSamples := 132300, crossfadeProgress := 33075,
    playingFileIndex := 1, openCount := 2, oldCloses := 0 }

/-- Mid-crossfade state in which the outgoing file 0 is exhausted (cursor at
its 102-byte end, so the next read returns zero bytes). -/
def stOldEnd : PState :=
  { oldA := some 0, oldPos := 102, newA := some 1, newPos := 44,
    crossfadeActive := true, crossfadeSamples := 132300, crossfadeProgress := 1000,
    playingFileIndex := 1, openCount := 2, oldCloses := 0 }

/-- State in which both handles sit at the end of the 102-byte file 0. -/
def stBothEnd : PState :=
  { oldA := some 0, oldPos := 102, newA := some 0, newPos := 102,
    crossfadeActive := true, crossfadeSamples := 132300, crossfadeProgress := 1000,
    playingFileIndex := 0, openCount := 2, oldCloses := 0 }

/-- A freshly started crossfade of 2560 frames between two long files. -/
def stFresh : PState :=
  { oldA := some 1, oldPos := 44, newA := some 2, newPos := 44,
    crossfadeActive := true, crossfadeSamples := 2560, crossfadeProgress := 0,
    playingFileIndex := 2, openCount := 2, oldCloses := 0 }

/-- Steady single-source playback of file 1. -/
def stSingle : PState :=
  { oldA := none, oldPos := 0, newA := some 1, newPos := 500,
    crossfadeActive := false, crossfadeSamples := 132300,
    crossfadeProgress := 132300, playingFileIndex := 1, openCount := 1,
    oldCloses := 0 }

/-- The selection state right after `setup()`. -/
def selBoot : SelState :=
  { selectedFileIndex := 0, waitingToPlay := false, lastInputTime := 0 }

/-- Claim C5 scenario timeline: three Next presses at t = 0, 500, 1000 ms and
polling passes of `loop()` before, at and after the 2-second commit point. -/
def c5Trace : List (ℕ × SelEvent) :=
  [(0, .next), (500, .next), (1000, .next), (1500, .poll), (2000, .poll),
   (2500, .poll), (2900, .poll), (3000, .poll), (3100, .poll), (3500, .poll),
   (5000, .poll)]

/-- A pending selection of file 3 armed at t = 1000 ms. -/
def selPending : SelState :=
  { selectedFileIndex := 3, waitingToPlay := true, lastInputTime := 1000 }

/-! ## Theorems -/

/-- Every encoder step lands in [minBPM, maxBPM]. -/
theorem encoderStep_bounds (bpm : ℤ) (up : Bool) :
    30 ≤ encoderStep bpm up ∧ encoderStep bpm up ≤ 240 := by
  simp only [encoderStep, minBPM, maxBPM]
  split_ifs <;> omega

/-- Claim C9: each encoder tempo step is applied and then clamped, so after
every operation the tempo is an integer in [30, 240]. -/
theorem encoderClampInvariant :
    (∀ (bpm : ℤ) (up : Bool),
        encoderStep bpm up = max 30 (min 240 (bpm + (if up then 1 else -1))) ∧
        30 ≤ encoderStep bpm up ∧ encoderStep bpm up ≤ 240) ∧
    (∀ (steps : List Bool) (bpm : ℤ), 30 ≤ bpm → bpm ≤ 240 →
        30 ≤ steps.foldl encoderStep bpm ∧ steps.foldl encoderStep bpm ≤ 240) := by
  constructor
  · intro bpm up
    refine ⟨?_, encoderStep_bounds bpm up⟩
    simp only [encoderStep, minBPM, maxBPM]
    split_ifs <;> omega
  · intro steps
    induction steps with
    | nil => intro bpm h1 h2; exact ⟨h1, h2⟩
    | cons a l ih =>
      intro bpm h1 h2
      simpa using ih (encoderStep bpm a) (encoderStep_bounds bpm a).1
        (encoderStep_bounds bpm a).2

/-- Witness for claim C9 at bpm 120 and three concrete detents. -/
theorem encoderClampInvariant_witness :
    (30 : ℤ) ≤ 120 ∧ (120 : ℤ) ≤ 240 ∧
    30 ≤ [true, false, false].foldl encoderStep 120 ∧
    [true, false, false].foldl encoderStep 120 ≤ 240 :=
  ⟨by decide, by decide,
   (encoderClampInvariant.2 [true, false, false] 120 (by decide) (by decide)).1,
   (encoderClampInvariant.2 [true, false, false] 120 (by decide) (by decide)).2⟩

/-- The function `updateMetronome` never changes the enable flag. -/
theorem updateMetronome_enabled (now : ℕ) (s : MetroState) :
    (updateMetronome now s).metronomeEnabled = s.metronomeEnabled := by
  unfold updateMetronome; split_ifs <;> rfl

/-- The function `generateClickSample` never changes the enable flag. -/
theorem generateClickSample_enabled (wave : Bool → ℕ → ℤ) (now : ℕ)
    (s : MetroState) :
    (generateClickSample wave now s).2.metronomeEnabled = s.metronomeEnabled := by
  unfold generateClickSample; split_ifs <;> rfl

/-- Claim C10: disabling the metronome immediately kills any sounding click
voice; the invariant that disabled implies no active voice is preserved by every
metronome operation; and while disabled the click channel emits exactly 0. -/
theorem metronomeDisabledSilence :
    (∀ s : MetroState, clickInv (toggleMetronome s)) ∧
    (∀ s : MetroState, s.metronomeEnabled = true →
        (toggleMetronome s).clickActive = false) ∧
    (∀ (s : MetroState) (now : ℕ), clickInv s → clickInv (updateMetronome now s)) ∧
    (∀ (s : MetroState) (now : ℕ) (wave : Bool → ℕ → ℤ),
        clickInv s → clickInv (generateClickSample wave now s).2) ∧
    (∀ (s : MetroState) (now : ℕ) (wave : Bool → ℕ → ℤ),
        s.metronomeEnabled = false → clickInv s →
        (generateClickSample wave now s).1 = 0) := by
  refine ⟨?_, ?_, ?_, ?_, ?_⟩
  · intro s hd
    simp only [toggleMetronome] at hd ⊢
    simp only [Bool.not_eq_false'] at hd
    simp [hd]
  · intro s he
    simp [toggleMetronome, he]
  · intro s now h hd
    rw [updateMetronome_enabled] at hd
    have hca := h hd
    unfold updateMetronome
    split_ifs <;> exact hca
  · intro s now wave h hd
    rw [generateClickSample_enabled] at hd
    have hca := h hd
    unfold generateClickSample
    split_ifs <;> first | rfl | exact hca
  · intro s now wave he h
    have : s.clickActive = false := h he
    simp [generateClickSample, this]

/-- Witness for claim C10: a disabled metronome state emits a zero click
sample, whatever the waveform is. -/
theorem metronomeDisabledSilence_witness :
    clickInv (toggleMetronome metroBoot) ∧
    (toggleMetronome metroBoot).metronomeEnabled = false ∧
    (generateClickSample (fun _ _ => 7) 5 (toggleMetronome metroBoot)).1 = 0 :=
  ⟨by decide, by decide,
   metronomeDisabledSilence.2.2.2.2 (toggleMetronome metroBoot) 5 (fun _ _ => 7)
     (by decide) (by decide)⟩

/-- Every supported meter has at least one beat per measure. -/
theorem one_le_beatsPerMeasure (idx : ℕ) : 1 ≤ beatsPerMeasureOf idx := by
  match idx with
  | 0 => decide
  | 1 => decide
  | 2 => decide
  | n + 3 => simp [beatsPerMeasureOf, timeSignatures, List.get?]

/-- The sketch's float comparison that decides a beat boundary is equivalent
to the cross-multiplied integer comparison. -/
theorem beatDue_eq_nat (now : ℕ) (s : MetroState) (h : 0 < s.currentBPM) :
    beatDue now s = decide (60000 ≤ (now - s.lastClickTime) * s.currentBPM) := by
  have hb : (0 : ℚ) < (s.currentBPM : ℚ) := by exact_mod_cast h
  rw [beatDue, decide_eq_decide, div_le_iff₀ hb]
  exact ⟨fun h2 => by exact_mod_cast h2, fun h2 => by exact_mod_cast h2⟩

/-- Claim C4: a beat fires exactly when the elapsed time since the last beat
reaches 60000/bpm ms; each beat advances the counter, wrapping to 1 (never 0)
past the meter numerator, and is accented exactly when the counter is 1.  In
the bpm = 120, 4/4 boot scenario, beats fire every 500 ms with numbers
1,2,3,4 and then wrap to accented beat 1 at 2500 ms (while a poll at 2499 ms
fires nothing). -/
theorem metronomeBeatSchedule (s : MetroState) (now : ℕ)
    (hen : s.metronomeEnabled = true)
    (hlo : 30 ≤ s.currentBPM) (hhi : s.currentBPM ≤ 240)
    (hmono : s.lastClickTime ≤ now) :
    (beatDue now s = true ↔ 60000 ≤ (now - s.lastClickTime) * s.currentBPM) ∧
    (beatDue now s = false → updateMetronome now s = s) ∧
    (beatDue now s = true →
      (updateMetronome now s).currentBeat =
        (if beatsPerMeasureOf s.currentTimeSigIndex < s.currentBeat + 1 then 1
         else s.currentBeat + 1) ∧
      1 ≤ (updateMetronome now s).currentBeat ∧
      (updateMetronome now s).currentBeat ≤
        max (beatsPerMeasureOf s.currentTimeSigIndex) 1 ∧
      ((updateMetronome now s).accentBeat = true ↔
        (updateMetronome now s).currentBeat = 1) ∧
      (updateMetronome now s).lastClickTime = now) ∧
    metroSim [100, 500, 1000, 1500, 2000, 2499, 2500] metroBoot =
      [(500, 1, true), (1000, 2, false), (1500, 3, false), (2000, 4, false),
       (2500, 1, true)] := by
  refine ⟨?_, ?_, ?_, ?_⟩
  · rw [beatDue_eq_nat now s (by omega), decide_eq_true_eq]
  · intro hf
    simp [updateMetronome, hen, hf]
  · intro ht
    have h1 := one_le_beatsPerMeasure s.currentTimeSigIndex
    refine ⟨?_, ?_, ?_, ?_, ?_⟩ <;>
      simp [updateMetronome, hen, ht] <;>
      first
        | omega
        | (split_ifs <;> omega)
  · simp [metroSim, beatDue_eq_nat, metroBoot, updateMetronome,
      beatsPerMeasureOf, timeSignatures]

/-- Witness for claim C4: at boot (bpm 120, 4/4), a poll 500 ms in fires the
first, accented beat. -/
theorem metronomeBeatSchedule_witness :
    metroBoot.metronomeEnabled = true ∧ 30 ≤ metroBoot.currentBPM ∧
    metroBoot.currentBPM ≤ 240 ∧ metroBoot.lastClickTime ≤ 500 ∧
    (beatDue 500 metroBoot = true ↔ 60000 ≤ (500 - metroBoot.lastClickTime) * metroBoot.currentBPM) :=
  ⟨rfl, by decide, by decide, by decide,
   (metronomeBeatSchedule metroBoot 500 rfl (by decide) (by decide) (by decide)).1⟩

/-- Claim C5: a navigation event always restarts the pending-selection commit
timer, so a burst of Next presses commits exactly once; with the 2000 ms
timeout, Next at t = 0, 500, 1000 ms yields the single commit (3000, 3),
index 3 being three increments from 0 (mod 10 files). -/
theorem pendingRestartSingleCommit :
    (∀ (count now : ℕ) (s : SelState),
        (nextFile count now s).lastInputTime = now ∧
        (nextFile count now s).waitingToPlay = true ∧
        (prevFile count now s).lastInputTime = now ∧
        (prevFile count now s).waitingToPlay = true ∧
        (∀ t, t - now < selectTimeoutMs →
            commitDue t (nextFile count now s) = false)) ∧
    (selRun 10 selBoot c5Trace).2 = [(3000, 3)] ∧
    (3 : ℕ) = (0 + 1 + 1 + 1) % 10 := by
  refine ⟨?_, by decide, by decide⟩
  intro count now s
  refine ⟨rfl, rfl, rfl, rfl, ?_⟩
  intro t ht
  simp only [commitDue, nextFile, Bool.true_and, decide_eq_false_iff_not]
  omega

/-- Witness for claim C5: 900 ms after a Next press the commit is not yet
due. -/
theorem pendingRestartSingleCommit_witness :
    2099 - 1200 < selectTimeoutMs ∧
    commitDue 2099 (nextFile 10 1200 selBoot) = false :=
  ⟨by decide,
   (pendingRestartSingleCommit.1 10 1200 selBoot).2.2.2.2 2099 (by decide)⟩

/-- At most two handle slots exist. -/
theorem openSlots_le_two (s : PState) : openSlots s ≤ 2 := by
  unfold openSlots; split_ifs <;> omega

/-- The operation `startPlaying` preserves the handle accounting. -/
theorem handleInv_startPlaying (env : Env) (i : ℕ) (s : PState)
    (h : handleInv s) : handleInv (startPlaying env i s) := by
  unfold handleInv openSlots at h ⊢
  unfold startPlaying
  split_ifs at h ⊢ <;> simp_all [openSlots] <;> omega

/-- The operation `startCrossfade` preserves the handle accounting. -/
theorem handleInv_startCrossfade (env : Env) (i : ℕ) (s : PState)
    (h : handleInv s) : handleInv (startCrossfade env i s) := by
  unfold startCrossfade
  rcases hn : s.newA with _ | x
  · exact handleInv_startPlaying env i s h
  · unfold handleInv openSlots at h ⊢
    rw [hn] at h
    split_ifs at h ⊢ <;> simp_all

/-- The old-file phase of a mixing cycle preserves the handle accounting. -/
theorem handleInv_stepOldFile (env : Env) (s : PState)
    (h : handleInv s) : handleInv (stepOldFile env s) := by
  unfold stepOldFile
  rcases ho : s.oldA with _ | a
  · exact h
  · unfold handleInv openSlots at h ⊢
    rw [ho] at h
    split_ifs at h ⊢ <;> simp_all

/-- The new-file phase of a mixing cycle preserves the handle accounting. -/
theorem handleInv_stepNewFile (env : Env) (s : PState)
    (h : handleInv s) : handleInv (stepNewFile env s) := by
  unfold stepNewFile
  rcases hn : s.newA with _ | a
  · exact h
  · unfold handleInv openSlots at h ⊢
    rw [hn] at h
    split_ifs at h ⊢ <;> simp_all

/-- The crossfade bookkeeping of a mixing cycle preserves the handle
accounting. -/
theorem handleInv_stepProgress (m : ℕ) (s : PState)
    (h : handleInv s) : handleInv (stepProgress m s) := by
  unfold stepProgress
  split_ifs with h1 h2
  · rcases ho : s.oldA with _ | a
    · unfold handleInv openSlots at h ⊢
      rw [ho] at h
      simp_all
    · unfold handleInv openSlots at h ⊢
      rw [ho] at h
      split_ifs at h ⊢ <;> simp_all
  · exact h
  · exact h

/-- A whole `readWavDataAndPlay` call preserves the handle accounting. -/
theorem handleInv_readStep (env : Env) (s : PState)
    (h : handleInv s) : handleInv (readStep env s).1 := by
  unfold readStep
  split_ifs
  · exact h
  · exact handleInv_stepNewFile env _ (handleInv_stepOldFile env s h)
  · exact handleInv_stepProgress _ _
      (handleInv_stepNewFile env _ (handleInv_stepOldFile env s h))

/-- Every audio-path operation preserves the handle accounting. -/
theorem handleInv_applyOp (env : Env) (s : PState) (op : AudioOp)
    (h : handleInv s) : handleInv (applyOp env s op) := by
  cases op with
  | play i => exact handleInv_startPlaying env i s h
  | crossfade i => exact handleInv_startCrossfade env i s h
  | mixCycle => exact handleInv_readStep env s h

/-- Claim C2: under the handle accounting invariant, any sequence of
operations keeps at most two sources open at every instant; and a
`startCrossfade` arriving while a source plays discards the outgoing handle
(one release is recorded), moves the playing source to the outgoing slot,
and starts a fresh transition, still with at most two open handles. -/
theorem atMostTwoSources (env : Env) (s : PState) (ops : List AudioOp)
    (h : handleInv s) :
    (handleInv (applyOps env s ops) ∧ (applyOps env s ops).openCount ≤ 2) ∧
    (∀ (t : PState) (i : ℕ), handleInv t → t.newA.isSome = true →
        env.openOk i = true →
        (startCrossfade env i t).oldA = t.newA ∧
        (startCrossfade env i t).oldPos = t.newPos ∧
        (startCrossfade env i t).crossfadeActive = true ∧
        (startCrossfade env i t).crossfadeProgress = 0 ∧
        (startCrossfade env i t).oldCloses =
          t.oldCloses + (if t.oldA.isSome then 1 else 0) ∧
        (startCrossfade env i t).openCount = 2) := by
  constructor
  · have hinv : handleInv (applyOps env s ops) := by
      unfold applyOps
      induction ops generalizing s with
      | nil => exact h
      | cons op l ih =>
        exact ih (applyOp env s op) (handleInv_applyOp env s op h)
    refine ⟨hinv, ?_⟩
    rw [hinv]
    exact openSlots_le_two _
  · intro t i hinv hplay hok
    rcases Option.isSome_iff_exists.mp hplay with ⟨x, hx⟩
    unfold handleInv openSlots at hinv
    rw [hx] at hinv
    unfold startCrossfade
    rw [hx]
    simp only [hok, if_true]
    refine ⟨by simp [hx], by simp, by simp, by simp, by simp, ?_⟩
    split_ifs at hinv ⊢ <;> simp_all

/-- Witness for claim C2: from single-source playback, a mix cycle, a
conflicting crossfade request and another mix cycle never exceed two open
handles. -/
theorem atMostTwoSources_witness :
    handleInv stSingle ∧
    (handleInv (applyOps envW stSingle
        [.mixCycle, .crossfade 2, .mixCycle, .crossfade 1]) ∧
      (applyOps envW stSingle
        [.mixCycle, .crossfade 2, .mixCycle, .crossfade 1]).openCount ≤ 2) :=
  ⟨by decide,
   (atMostTwoSources envW stSingle
      [.mixCycle, .crossfade 2, .mixCycle, .crossfade 1] (by decide)).1⟩

/-- The phase `stepOldFile` never touches the incoming-file fields. -/
theorem stepOldFile_new (env : Env) (s : PState) :
    (stepOldFile env s).newA = s.newA ∧ (stepOldFile env s).newPos = s.newPos := by
  cases hA : s.oldA <;> simp [stepOldFile, hA] <;> split_ifs <;> simp

/-- The phase `stepNewFile` touches nothing but the incoming-file cursor. -/
theorem stepNewFile_frame (env : Env) (s : PState) :
    (stepNewFile env s).oldA = s.oldA ∧
    (stepNewFile env s).crossfadeActive = s.crossfadeActive ∧
    (stepNewFile env s).crossfadeSamples = s.crossfadeSamples ∧
    (stepNewFile env s).crossfadeProgress = s.crossfadeProgress ∧
    (stepNewFile env s).oldCloses = s.oldCloses ∧
    (stepNewFile env s).newA = s.newA := by
  cases hA : s.newA <;> simp [stepNewFile, hA] <;> split_ifs <;> simp

/-- The phase `stepProgress` never touches the incoming-file fields. -/
theorem stepProgress_new (m : ℕ) (s : PState) :
    (stepProgress m s).newA = s.newA ∧ (stepProgress m s).newPos = s.newPos := by
  unfold stepProgress
  split_ifs
  · cases hA : s.oldA <;> simp [hA]
  · simp
  · simp

/-- With the crossfade inactive, `stepProgress` is the identity. -/
theorem stepProgress_inactive (m : ℕ) (s : PState)
    (h : s.crossfadeActive = false) : stepProgress m s = s := by
  unfold stepProgress
  rw [h]
  simp

/-- The call `readWavDataAndPlay` never changes which incoming file is open. -/
theorem readStep_newA (env : Env) (s : PState) :
    (readStep env s).1.newA = s.newA := by
  unfold readStep
  split_ifs
  · rfl
  · exact (stepNewFile_frame env _).2.2.2.2.2.trans (stepOldFile_new env s).1
  · exact ((stepProgress_new _ _).1.trans
      ((stepNewFile_frame env _).2.2.2.2.2.trans (stepOldFile_new env s).1))

/-- The old-file phase preserves the crossfade invariant of one transition. -/
theorem c1Inv_stepOldFile (env : Env) (T : ℕ) (s : PState) (h : c1Inv T s) :
    c1Inv T (stepOldFile env s) := by
  obtain ⟨hT, hA | hB⟩ := h
  · obtain ⟨x, hx⟩ := Option.isSome_iff_exists.mp hA.2.2.1
    by_cases hz : bytesOldOf env s = 0
    · have he : stepOldFile env s =
          { s with oldA := none, crossfadeActive := false,
                   openCount := s.openCount - 1, oldCloses := s.oldCloses + 1 } := by
        simp [stepOldFile, hx, hz]
      rw [he]
      exact ⟨hT, Or.inr ⟨rfl, rfl, by simp [hA.2.1]⟩⟩
    · have he : stepOldFile env s = { s with oldPos := s.oldPos + bytesOldOf env s } := by
        simp [stepOldFile, hx, hz]
      rw [he]
      exact ⟨hT, Or.inl ⟨hA.1, hA.2.1, by simp [hx], hA.2.2.2⟩⟩
  · have he : stepOldFile env s = s := by
      simp [stepOldFile, hB.2.1]
    rw [he]
    exact ⟨hT, Or.inr hB⟩

/-- The new-file phase preserves the crossfade invariant of one transition. -/
theorem c1Inv_stepNewFile (env : Env) (T : ℕ) (s : PState) (h : c1Inv T s) :
    c1Inv T (stepNewFile env s) := by
  have hf := stepNewFile_frame env s
  unfold c1Inv at h ⊢
  rw [hf.1, hf.2.1, hf.2.2.1, hf.2.2.2.1, hf.2.2.2.2.1]
  exact h

/-- The crossfade bookkeeping preserves the invariant: on reaching `T` frames
the fade ends and the outgoing handle is released, for the first time. -/
theorem c1Inv_stepProgress (m T : ℕ) (s : PState) (h : c1Inv T s) :
    c1Inv T (stepProgress m s) := by
  obtain ⟨hT, hA | hB⟩ := h
  · obtain ⟨x, hx⟩ := Option.isSome_iff_exists.mp hA.2.2.1
    unfold stepProgress
    rw [hA.1]
    simp only [if_true]
    by_cases hc : s.crossfadeSamples ≤ s.crossfadeProgress + m
    · rw [if_pos hc]
      simp only [hx]
      exact ⟨hT, Or.inr ⟨rfl, rfl, by simp [hA.2.1]⟩⟩
    · rw [if_neg hc]
      refine ⟨hT, Or.inl ⟨rfl, hA.2.1, by simp [hx], ?_⟩⟩
      show s.crossfadeProgress + m < T
      omega
  · rw [stepProgress_inactive m s hB.1]
    exact ⟨hT, Or.inr hB⟩

/-- A whole `readWavDataAndPlay` call preserves the crossfade invariant. -/
theorem c1Inv_readStep (env : Env) (T : ℕ) (s : PState) (h : c1Inv T s) :
    c1Inv T (readStep env s).1 := by
  unfold readStep
  split_ifs
  · exact h
  · exact c1Inv_stepNewFile env T _ (c1Inv_stepOldFile env T s h)
  · exact c1Inv_stepProgress _ T _
      (c1Inv_stepNewFile env T _ (c1Inv_stepOldFile env T s h))

/-- Any number of mixing cycles preserves the crossfade invariant. -/
theorem c1Inv_mixN (env : Env) (T : ℕ) (s : PState) (n : ℕ) (h : c1Inv T s) :
    c1Inv T (mixN env s n) := by
  induction n generalizing s with
  | zero => exact h
  | succ n ih => exact ih _ (c1Inv_readStep env T s h)

/-- Claim C1: during a transition of `T > 0` total frames the per-frame ramp
ratio is exactly clamp(framesElapsed/T, 0, 1) (the code's cap at 1 together
with nonnegativity), and once mixing has accumulated at least — in
particular, exactly — `T` frames, the crossfade is over, the outgoing handle
has been released exactly once, and the gains the mixer would now apply are
outgoingGain = MIN_GAIN (not zero) and incomingGain = 1. -/
theorem crossfadeRampCompletion (env : Env) (s0 : PState) (T n : ℕ)
    (hT : s0.crossfadeSamples = T) (hTpos : 0 < T)
    (hact : s0.crossfadeActive = true) (hprog : s0.crossfadeProgress = 0)
    (hold : s0.oldA.isSome = true) (hcl : s0.oldCloses = 0)
    (hreach : T ≤ (mixN env s0 n).crossfadeProgress) :
    (∀ p : ℕ, ratioOf true p T = max 0 (min ((p : ℚ) / (T : ℚ)) 1)) ∧
    (mixN env s0 n).crossfadeActive = false ∧
    (mixN env s0 n).oldA = none ∧
    (mixN env s0 n).oldCloses = 1 ∧
    oldVolOf (mixN env s0 n).crossfadeActive (mixN env s0 n).crossfadeProgress
        (mixN env s0 n).crossfadeSamples = oldMin ∧
    newVolOf (mixN env s0 n).crossfadeActive (mixN env s0 n).crossfadeProgress
        (mixN env s0 n).crossfadeSamples = 1 := by
  have hratio : ∀ p : ℕ, ratioOf true p T = max 0 (min ((p : ℚ) / (T : ℚ)) 1) := by
    intro p
    have hx : (0 : ℚ) ≤ min ((p : ℚ) / (T : ℚ)) 1 :=
      le_min (div_nonneg (by positivity) (by positivity)) zero_le_one
    rw [ratioOf, if_pos ⟨rfl, hTpos⟩, (max_eq_right hx)]
  have hinv := c1Inv_mixN env T s0 n ⟨hT, Or.inl ⟨hact, hcl, hold, by omega⟩⟩
  obtain ⟨hT2, hA | hB⟩ := hinv
  · exact absurd hreach (not_le.mpr hA.2.2.2)
  · refine ⟨hratio, hB.1, hB.2.1, hB.2.2, ?_, ?_⟩
    · rw [hB.1]
      norm_num [oldVolOf, ratioOf, oldMin]
    · rw [hB.1]
      norm_num [newVolOf, ratioOf]

/-- Witness for claim C1: a fresh 2560-frame crossfade between two long
files, mixed for 10 cycles of 256 frames — exactly 2560 frames. -/
theorem crossfadeRampCompletion_witness :
    stFresh.crossfadeSamples = 2560 ∧ 0 < 2560 ∧
    stFresh.crossfadeActive = true ∧ stFresh.crossfadeProgress = 0 ∧
    stFresh.oldA.isSome = true ∧ stFresh.oldCloses = 0 ∧
    2560 ≤ (mixN envW stFresh 10).crossfadeProgress ∧
    ((mixN envW stFresh 10).crossfadeActive = false ∧
     (mixN envW stFresh 10).oldA = none ∧
     (mixN envW stFresh 10).oldCloses = 1 ∧
     oldVolOf (mixN envW stFresh 10).crossfadeActive
         (mixN envW stFresh 10).crossfadeProgress
         (mixN envW stFresh 10).crossfadeSamples = oldMin ∧
     newVolOf (mixN envW stFresh 10).crossfadeActive
         (mixN envW stFresh 10).crossfadeProgress
         (mixN envW stFresh 10).crossfadeSamples = 1) :=
  ⟨rfl, by decide, rfl, rfl, rfl, rfl, by decide,
   (crossfadeRampCompletion envW stFresh 2560 10 rfl (by decide) rfl rfl rfl rfl
      (by decide)).2.1,
   (crossfadeRampCompletion envW stFresh 2560 10 rfl (by decide) rfl rfl rfl rfl
      (by decide)).2.2.1,
   (crossfadeRampCompletion envW stFresh 2560 10 rfl (by decide) rfl rfl rfl rfl
      (by decide)).2.2.2.1,
   (crossfadeRampCompletion envW stFresh 2560 10 rfl (by decide) rfl rfl rfl rfl
      (by decide)).2.2.2.2.1,
   (crossfadeRampCompletion envW stFresh 2560 10 rfl (by decide) rfl rfl rfl rfl
      (by decide)).2.2.2.2.2⟩

/-- Claim C8: the mixed block is exactly `maxSamples` frames long, and a
source whose read fell short of the request contributes zero (silence) to
every frame past what it returned, so those frames carry only the other
source scaled by its gain; the call still reports success whenever any frame
was produced — a short read is never surfaced as an error. -/
theorem shortReadSilentPadding (env : Env) (s : PState) :
    (mixBlock env s).length = maxSamplesOf env s ∧
    (∀ i, samplesOldOf env s ≤ i → oldContrib env s i = 0) ∧
    (∀ i, samplesNewOf env s ≤ i → newContrib env s i = 0) ∧
    (∀ i, samplesOldOf env s ≤ i →
        blockSample env s i =
          toI16 ((newContrib env s i : ℚ) *
            newVolOf (activeMid env s) s.crossfadeProgress s.crossfadeSamples)) ∧
    (∀ i, samplesNewOf env s ≤ i →
        blockSample env s i =
          toI16 ((oldContrib env s i : ℚ) *
            oldVolOf (activeMid env s) s.crossfadeProgress s.crossfadeSamples)) ∧
    (0 < maxSamplesOf env s → (readStep env s).2 = true) := by
  have hold : ∀ i, samplesOldOf env s ≤ i → oldContrib env s i = 0 := by
    intro i hi
    unfold oldContrib
    rw [if_neg (by omega)]
  have hnew : ∀ i, samplesNewOf env s ≤ i → newContrib env s i = 0 := by
    intro i hi
    unfold newContrib
    rw [if_neg (by omega)]
  refine ⟨by simp [mixBlock], hold, hnew, ?_, ?_, ?_⟩
  · intro i hi
    unfold blockSample exactMixAt mixedSampleQ
    rw [hold i hi]
    norm_num
  · intro i hi
    unfold blockSample exactMixAt mixedSampleQ
    rw [hnew i hi]
    norm_num
  · intro hpos
    unfold readStep
    rw [if_neg, if_neg]
    · intro hz
      rw [hz] at hpos
      exact absurd hpos (by omega)
    · rintro ⟨h1, h2⟩
      have : maxSamplesOf env s = 0 := by
        simp [maxSamplesOf, samplesOldOf, samplesNewOf, bytesOldOf, bytesNewOf,
          h1, h2]
      omega

/-- Witness for claim C8: in the mid-crossfade state the outgoing file
returned 2 of the 512 requested bytes, so frame 5 of the block is silence
from the outgoing side and carries only the incoming sample, and the call
reports success. -/
theorem shortReadSilentPadding_witness :
    samplesOldOf envW stMid = 1 ∧
    oldContrib envW stMid 5 = 0 ∧
    blockSample envW stMid 5 =
      toI16 ((newContrib envW stMid 5 : ℚ) *
        newVolOf (activeMid envW stMid) stMid.crossfadeProgress
          stMid.crossfadeSamples) ∧
    (0 < maxSamplesOf envW stMid ∧ (readStep envW stMid).2 = true) :=
  ⟨by decide,
   (shortReadSilentPadding envW stMid).2.1 5 (by decide),
   (shortReadSilentPadding envW stMid).2.2.2.1 5 (by decide),
   by decide,
   (shortReadSilentPadding envW stMid).2.2.2.2.2 (by decide)⟩

/-- Claim C3 counterexample: the outgoing handle (`oldFile`, open on file 0,
cursor at its 102-byte end so the read returns zero bytes) is NOT
repositioned to byte 44 and kept playing — `readWavDataAndPlay` closes it and
stops the crossfade.  The claimed loop-restart behaviour fails for this open
sample source. -/
theorem zeroReadLoopCounterexample :
    stOldEnd.oldA = some 0 ∧ bytesOldOf envW stOldEnd = 0 ∧
    (readStep envW stOldEnd).1.oldA = none ∧
    (readStep envW stOldEnd).1.crossfadeActive = false ∧
    ¬((readStep envW stOldEnd).1.oldA = some 0 ∧
      (readStep envW stOldEnd).1.oldPos = 44) := by decide

/-- Claim C3 (amended): when a read on the incoming/current source
(`newFile`) returns zero bytes, its cursor is repositioned to byte offset 44,
it contributes zero frames to that call, and the next read resumes exactly at
the header-skip offset; an outgoing source (`oldFile`) whose read returns
zero bytes is instead closed and the crossfade is deactivated — it stops
rather than loops. -/
theorem zeroReadLoopsIncoming (env : Env) (s : PState) (a : ℕ)
    (hnew : s.newA = some a) (hend : env.size a ≤ s.newPos) :
    samplesNewOf env s = 0 ∧
    (readStep env s).1.newA = s.newA ∧
    (readStep env s).1.newPos = 44 ∧
    (∀ b : ℕ, s.oldA = some b → env.size b ≤ s.oldPos →
        (readStep env s).1.oldA = none ∧
        (readStep env s).1.crossfadeActive = false ∧
        (readStep env s).1.oldCloses = s.oldCloses + 1) := by
  have hb : bytesNewOf env s = 0 := by
    simp only [bytesNewOf, hnew, bytesRead]
    omega
  have hguard : ¬(s.oldA = none ∧ s.newA = none) := by
    rintro ⟨_, h2⟩
    rw [hnew] at h2
    exact Option.noConfusion h2
  have hb1 : bytesNewOf env (stepOldFile env s) = 0 := by
    have e1 := (stepOldFile_new env s).1
    have e2 := (stepOldFile_new env s).2
    simp only [bytesNewOf, e1, e2]
    simp only [bytesNewOf] at hb
    exact hb
  have hs2pos : (stepNewFile env (stepOldFile env s)).newPos = 44 := by
    have e1 := (stepOldFile_new env s).1
    simp [stepNewFile, e1, hnew, hb1]
  refine ⟨by simp [samplesNewOf, hb], readStep_newA env s, ?_, ?_⟩
  · unfold readStep
    rw [if_neg hguard]
    split_ifs with hm
    · exact hs2pos
    · exact (stepProgress_new _ _).2.trans hs2pos
  · intro b hob hoe
    have hbo : bytesOldOf env s = 0 := by
      simp only [bytesOldOf, hob, bytesRead]
      omega
    have h1 : stepOldFile env s =
        { s with oldA := none, crossfadeActive := false,
                 openCount := s.openCount - 1, oldCloses := s.oldCloses + 1 } := by
      simp [stepOldFile, hob, hbo]
    have hf := stepNewFile_frame env (stepOldFile env s)
    have h3 : (stepNewFile env (stepOldFile env s)).oldA = none ∧
        (stepNewFile env (stepOldFile env s)).crossfadeActive = false ∧
        (stepNewFile env (stepOldFile env s)).oldCloses = s.oldCloses + 1 := by
      rw [hf.1, hf.2.1, hf.2.2.2.2.1, h1]
      exact ⟨rfl, rfl, rfl⟩
    unfold readStep
    rw [if_neg hguard]
    split_ifs with hm
    · exact h3
    · show (stepProgress (maxSamplesOf env s)
          (stepNewFile env (stepOldFile env s))).oldA = none ∧
        (stepProgress (maxSamplesOf env s)
          (stepNewFile env (stepOldFile env s))).crossfadeActive = false ∧
        (stepProgress (maxSamplesOf env s)
          (stepNewFile env (stepOldFile env s))).oldCloses = s.oldCloses + 1
      rw [stepProgress_inactive _ _ h3.2.1]
      exact h3

/-- Witness for claim C3 (amended): both handles on file 0 at its end; the
incoming side seeks back to byte 44 while the outgoing side is closed. -/
theorem zeroReadLoopsIncoming_witness :
    stBothEnd.newA = some 0 ∧ envW.size 0 ≤ stBothEnd.newPos ∧
    (samplesNewOf envW stBothEnd = 0 ∧
     (readStep envW stBothEnd).1.newA = stBothEnd.newA ∧
     (readStep envW stBothEnd).1.newPos = 44 ∧
     ((readStep envW stBothEnd).1.oldA = none ∧
      (readStep envW stBothEnd).1.crossfadeActive = false ∧
      (readStep envW stBothEnd).1.oldCloses = stBothEnd.oldCloses + 1)) :=
  ⟨by decide, by decide,
   (zeroReadLoopsIncoming envW stBothEnd 0 (by decide) (by decide)).1,
   (zeroReadLoopsIncoming envW stBothEnd 0 (by decide) (by decide)).2.1,
   (zeroReadLoopsIncoming envW stBothEnd 0 (by decide) (by decide)).2.2.1,
   (zeroReadLoopsIncoming envW stBothEnd 0 (by decide) (by decide)).2.2.2 0
     (by decide) (by decide)⟩

/-- Truncation toward zero stays inside any range around zero that contains
the value, and lands within distance 1 of it. -/
theorem ratTrunc_bounds (q : ℚ) (h1 : -32768 ≤ q) (h2 : q ≤ 32767) :
    -32768 ≤ ratTrunc q ∧ ratTrunc q ≤ 32767 ∧ |(ratTrunc q : ℚ) - q| < 1 := by
  unfold ratTrunc
  split_ifs with hq
  · have hf1 : (⌊q⌋ : ℚ) ≤ q := Int.floor_le q
    have hf2 : q - 1 < (⌊q⌋ : ℚ) := Int.sub_one_lt_floor q
    have hlo : (0 : ℤ) ≤ ⌊q⌋ := Int.floor_nonneg.mpr hq
    have hup : (⌊q⌋ : ℚ) ≤ 32767 := le_trans hf1 h2
    refine ⟨by omega, by exact_mod_cast hup, ?_⟩
    rw [abs_sub_lt_iff]
    constructor <;> linarith
  · have hc1 : q ≤ (⌈q⌉ : ℚ) := Int.le_ceil q
    have hc2 : (⌈q⌉ : ℚ) < q + 1 := Int.ceil_lt_add_one q
    have hup : (⌈q⌉ : ℚ) ≤ 32767 := by
      push_neg at hq
      have : (⌈q⌉ : ℚ) < 1 := lt_of_lt_of_le hc2 (by linarith)
      linarith
    have hlo : (-32768 : ℚ) ≤ (⌈q⌉ : ℚ) := le_trans h1 hc1
    refine ⟨by exact_mod_cast hlo, by exact_mod_cast hup, ?_⟩
    rw [abs_sub_lt_iff]
    constructor <;> linarith

/-- Two's-complement narrowing is the identity on in-range values. -/
theorem wrap16_eq_self (z : ℤ) (h1 : -32768 ≤ z) (h2 : z ≤ 32767) :
    wrap16 z = z := by
  unfold wrap16
  omega

/-- Claim C7 counterexample: in the mid-crossfade state the exact mixed value
of frame 1 is 3/4 (every single-precision operation the sketch performs here
is exact: the outgoing contribution is 0.0f and 3 × (33075/132300) = 0.75),
yet the sketch emits sample 0 — the C cast truncates — while the spec's
round-toward-nearest-and-clip semantics yields 1. -/
theorem mixCastCounterexample :
    exactMixAt envW stMid 1 = 3 / 4 ∧
    blockSample envW stMid 1 = 0 ∧
    specMixedSample (exactMixAt envW stMid 1) = 1 ∧
    blockSample envW stMid 1 ≠ specMixedSample (exactMixAt envW stMid 1) := by
  have h1 : exactMixAt envW stMid 1 = 3 / 4 := by
    norm_num [exactMixAt, mixedSampleQ, oldContrib, newContrib, activeMid,
      samplesOldOf, samplesNewOf, bytesOldOf, bytesNewOf, bytesRead, envW, stMid,
      bufferSize, oldVolOf, newVolOf, ratioOf, oldMin]
  have h2 : blockSample envW stMid 1 = 0 := by
    rw [blockSample, h1]
    norm_num [toI16, ratTrunc, wrap16]
  have h3 : specMixedSample (exactMixAt envW stMid 1) = 1 := by
    rw [h1]
    norm_num [specMixedSample, round_eq]
  exact ⟨h1, h2, h3, by rw [h2, h3]; decide⟩

/-- Claim C7 (amended): each output sample is the floating-point sum
`oldVal*oldVol + newVal*newVol` converted to int16 by truncation toward zero,
not by rounding to nearest; no saturation step exists.  For sums inside the
signed 16-bit range (where the C cast is defined behaviour) the emitted
sample is the truncated sum, within distance 1 of the exact value and inside
the 16-bit range. -/
theorem mixTruncationInRange (oldS newS : ℤ) (active : Bool) (p t : ℕ)
    (h1 : -32768 ≤ mixedSampleQ oldS newS active p t)
    (h2 : mixedSampleQ oldS newS active p t ≤ 32767) :
    toI16 (mixedSampleQ oldS newS active p t) =
      ratTrunc (mixedSampleQ oldS newS active p t) ∧
    -32768 ≤ toI16 (mixedSampleQ oldS newS active p t) ∧
    toI16 (mixedSampleQ oldS newS active p t) ≤ 32767 ∧
    |(toI16 (mixedSampleQ oldS newS active p t) : ℚ) -
        mixedSampleQ oldS newS active p t| < 1 := by
  obtain ⟨b1, b2, b3⟩ := ratTrunc_bounds _ h1 h2
  have hw := wrap16_eq_self _ b1 b2
  rw [toI16, hw]
  exact ⟨rfl, b1, b2, b3⟩

/-- Witness for claim C7 (amended) at the counterexample's frame inputs. -/
theorem mixTruncationInRange_witness :
    -32768 ≤ mixedSampleQ 0 3 true 33075 132300 ∧
    mixedSampleQ 0 3 true 33075 132300 ≤ 32767 ∧
    toI16 (mixedSampleQ 0 3 true 33075 132300) =
      ratTrunc (mixedSampleQ 0 3 true 33075 132300) :=
  ⟨by norm_num [mixedSampleQ, oldVolOf, newVolOf, ratioOf, oldMin],
   by norm_num [mixedSampleQ, oldVolOf, newVolOf, ratioOf, oldMin],
   (mixTruncationInRange 0 3 true 33075 132300
      (by norm_num [mixedSampleQ, oldVolOf, newVolOf, ratioOf, oldMin])
      (by norm_num [mixedSampleQ, oldVolOf, newVolOf, ratioOf, oldMin])).1⟩

/-- Claim C6: when `SD.open` fails inside a committed `startCrossfade`, the
attempted transition is aborted (no crossfade field is touched), the
previously committed source keeps playing from the same cursor, and the
selection is not promoted (`playingFileIndex` is unchanged); the commit is
consumed, so the user must navigate again. -/
theorem failedOpenKeepsCommitted (env : Env) (now : ℕ) (sel : SelState)
    (p : PState) (x : ℕ)
    (hwait : sel.waitingToPlay = true)
    (hdue : selectTimeoutMs ≤ now - sel.lastInputTime)
    (hplaying : p.newA = some x)
    (hfail : env.openOk sel.selectedFileIndex = false) :
    (loopCommit env now sel p).1.waitingToPlay = false ∧
    (loopCommit env now sel p).2.newA = p.newA ∧
    (loopCommit env now sel p).2.newPos = p.newPos ∧
    (loopCommit env now sel p).2.playingFileIndex = p.playingFileIndex ∧
    (loopCommit env now sel p).2.crossfadeActive = p.crossfadeActive ∧
    (loopCommit env now sel p).2.crossfadeProgress = p.crossfadeProgress ∧
    (loopCommit env now sel p).2.crossfadeSamples = p.crossfadeSamples := by
  have hc : commitDue now sel = true := by
    simp [commitDue, hwait, hdue]
  simp [loopCommit, hc, startCrossfade, hplaying, hfail]

/-- Witness for claim C6: committing pending file 3 (which fails to open)
while file 1 plays leaves file 1 playing, untouched. -/
theorem failedOpenKeepsCommitted_witness :
    selPending.waitingToPlay = true ∧
    selectTimeoutMs ≤ 3000 - selPending.lastInputTime ∧
    stSingle.newA = some 1 ∧
    envW.openOk selPending.selectedFileIndex = false ∧
    ((loopCommit envW 3000 selPending stSingle).1.waitingToPlay = false ∧
     (loopCommit envW 3000 selPending stSingle).2.newA = stSingle.newA ∧
     (loopCommit envW 3000 selPending stSingle).2.newPos = stSingle.newPos ∧
     (loopCommit envW 3000 selPending stSingle).2.playingFileIndex =
       stSingle.playingFileIndex ∧
     (loopCommit envW 3000 selPending stSingle).2.crossfadeActive =
       stSingle.crossfadeActive ∧
     (loopCommit envW 3000 selPending stSingle).2.crossfadeProgress =
       stSingle.crossfadeProgress ∧
     (loopCommit envW 3000 selPending stSingle).2.crossfadeSamples =
       stSingle.crossfadeSamples) :=
  ⟨by decide, by decide, by decide, by decide,
   failedOpenKeepsCommitted envW 3000 selPending stSingle 1 (by decide)
     (by decide) (by decide) (by decide)⟩

end AmbientPad
